import Mathlib

/-!
Verification of the source-processing pipeline of
`src/opendeepsearch/context_building/process_sources_pro.py`.

The Python module is embedded shallowly:

* Python exceptions become the `Except PyErr` monad; a `try/except Exception`
  block becomes a `match` on the `Except` value.
* The duck-typed `sources` argument (either an object exposing a `.data`
  attribute, or a plain list) becomes the sum type `SourcesArg`; accessing
  `.data` on a plain list raises `AttributeError`.
* `sources.data` is a dict holding the key `'organic'`: an ordered sequence
  whose entries are either falsy (`None`, `{}`, ...), modelled `none`, or a
  truthy source dict, modelled `some (s : Src)`.
* A source dict may lack the `'link'` key (`link : Option String`;
  reading a missing key raises `KeyError`), carries an optional `'html'`
  value written by the processor, and arbitrary further pass-through
  fields (`extra`).
* In-place mutation of a source dict (`source['html'] = v`) is threaded
  explicitly: the dict held in `valid_sources` aliases the entry of
  `sources.data['organic']` at its enumeration index, so the mutation is the
  pointwise update `setHtml` of the organic list at that index.  The only
  mutation the module performs happens inside
  `_update_sources_with_content`, which cannot raise (its per-source body
  is a total `if`/`try` with an internal handler), so the exceptional paths
  of `process_sources` return the argument in its unmutated state.
* The external collaborators (the `WebScraper`, the `Chunker` and the two
  rerankers live outside this module) are oracle parameters, each allowed
  to return any value or raise.
-/

/-- A Python exception value (only the distinctions the module observes). -/
inductive PyErr where
  | attributeError
  | keyError
  | other (msg : String)
deriving DecidableEq, Repr

/-- The value a source's `'html'` key holds after processing: the Python code
stores either a string (`""` on per-source failure; the raw initial value)
or a list of strings (reranked chunks, or the one-element `[html]`). -/
inductive HtmlVal where
  | str (s : String)
  | list (l : List String)
deriving DecidableEq, Repr

/-- A truthy source dict from the `'organic'` sequence: the `'link'` key (absent
allowed: reading it raises `KeyError`), the `'html'` key once written, and the
remaining pass-through fields. -/
structure Src where
  link : Option String
  html : Option HtmlVal := none
  extra : List (String × String) := []
deriving DecidableEq, Repr

/-- The dict behind `sources.data`: its `'organic'` entry (entries are `none`
when falsy) plus the other keys, which the module never touches. -/
structure SourcesData where
  organic : List (Option Src)
  rest : List (String × String) := []
deriving DecidableEq, Repr

/-- The `sources` argument of `process_sources`: either an object exposing a
`.data` attribute (the container produced by the upstream search call) or a
plain Python list, which has no such attribute. -/
inductive SourcesArg where
  | plain (l : List (Option Src))
  | wrapped (d : SourcesData)
deriving DecidableEq, Repr

/-- Reading `sources.data`: `AttributeError` on a plain list. -/
def getData : SourcesArg → Except PyErr SourcesData
  | SourcesArg.plain _ => Except.error PyErr.attributeError
  | SourcesArg.wrapped d => Except.ok d

/-- What `process_sources` returns: either the `sources` argument itself
(`return sources`) or the inner `sources.data` dict (`return sources.data`,
possibly after mutation). -/
inductive ProcResult where
  | outer (s : SourcesArg)
  | innerD (d : SourcesData)
deriving DecidableEq, Repr

/-- Modelled from the spec: the external collaborators of the processor,
whose code (the `WebScraper` of `crawl4ai_scraper`, the `Chunker`, the
`InfinitySemanticSearcher` / `JinaReranker`) is outside this module.  Per the
scraper contract, `scrape_many` returns an ordered mapping from link to a
per-strategy mapping to an object whose `content` field is the fetched text
(the mapping is an insertion-ordered Python dict, embedded as an association
list).  Each collaborator may raise. -/
structure Oracles where
  scrape_many : List String → Except PyErr (List (String × List (String × String)))
  split_text : String → Except PyErr (List String)
  get_reranked_documents : String → List String → Int → Except PyErr (List String)

/-- `leadMatch n h`: the char list `n` matches the leading chars of `h`. -/
def leadMatch : List Char → List Char → Bool
  | [], _ => true
  | _ :: _, [] => false
  | a :: as, b :: bs => a == b && leadMatch as bs

/-- `hasSub n h`: `n` occurs contiguously inside `h`. -/
def hasSub (n : List Char) : List Char → Bool
  | [] => n.isEmpty
  | b :: bs => leadMatch n (b :: bs) || hasSub n bs

/-- Python's `needle in hay` substring test on strings. -/
def strContains (needle hay : String) : Bool :=
  hasSub needle.data hay.data

/-- Python's prefix slice `l[:k]` with an `int` bound: a nonnegative `k` takes
the first `k` entries; a negative `k` drops the last `-k` entries. -/
def pySliceTo (l : List α) (k : Int) : List α :=
  if 0 ≤ k then l.take k.toNat else l.take (l.length - (-k).toNat)

/-- `_get_valid_sources` (the pure part, after `sources.data` succeeded):
`[(i, source) for i, source in enumerate(sources.data['organic'][:num_elements]) if source]`. -/
def get_valid_sources (d : SourcesData) (num_elements : Int) : List (Nat × Src) :=
  (List.enum (pySliceTo d.organic num_elements)).filterMap
    (fun p => Option.map (fun s => (p.1, s)) p.2)

/-- `[s[1]['link'] for s in valid_sources]`: reading a missing `'link'` key
raises `KeyError`. -/
def getLinks : List (Nat × Src) → Except PyErr (List String)
  | [] => Except.ok []
  | p :: t =>
    match p.2.link with
    | none => Except.error PyErr.keyError
    | some l =>
      match getLinks t with
      | Except.error e => Except.error e
      | Except.ok rest => Except.ok (l :: rest)

/-- `[x['no_extraction'].content for x in raw_contents.values()]`: the values
of the scraper's result mapping, in the mapping's own enumeration order; a
value lacking the `'no_extraction'` strategy raises `KeyError`. -/
def extractContents : List (String × List (String × String)) → Except PyErr (List String)
  | [] => Except.ok []
  | kv :: t =>
    match List.lookup "no_extraction" kv.2 with
    | none => Except.error PyErr.keyError
    | some c =>
      match extractContents t with
      | Except.error e => Except.error e
      | Except.ok rest => Except.ok (c :: rest)

/-- `_fetch_html_contents`. -/
def fetch_html_contents (o : Oracles) (links : List String) : Except PyErr (List String) :=
  match o.scrape_many links with
  | Except.error e => Except.error e
  | Except.ok raw => extractContents raw

/-- `_process_html_content`: returns `""` on empty input and on any exception
from chunking or reranking; otherwise the reranked chunk list.  Total — it
never raises. -/
def process_html_content (o : Oracles) (top_results : Int) (html q : String) : HtmlVal :=
  if html = "" then HtmlVal.str ""
  else
    match o.split_text html with
    | Except.error _ => HtmlVal.str ""
    | Except.ok documents =>
      match o.get_reranked_documents q documents top_results with
      | Except.error _ => HtmlVal.str ""
      | Except.ok reranked => HtmlVal.list reranked

/-- The value written into `source['html']` for one pair of the zip:
`self._process_html_content(html, query) if chunk else [html]`. -/
def computedHtml (o : Oracles) (top_results : Int) (html q : String) (chunk : Bool) : HtmlVal :=
  if chunk then process_html_content o top_results html q else HtmlVal.list [html]

/-- The in-place mutation `source['html'] = v`, seen through the alias: the
dict held at position `i` of the organic list receives the `'html'` value. -/
def setHtml : List (Option Src) → Nat → HtmlVal → List (Option Src)
  | [], _, _ => []
  | e :: t, 0, h => Option.map (fun s => { s with html := some h }) e :: t
  | e :: t, Nat.succ n, h => e :: setHtml t n h

/-- `_update_sources_with_content`: `for (i, source), html in zip(valid_sources,
html_contents): source['html'] = ...; return sources`.  The zip stops at the
shorter list; each iteration mutates the aliased organic entry. -/
def update_sources_with_content (o : Oracles) (top_results : Int) :
    SourcesData → List (Nat × Src) → List String → String → Bool → SourcesData
  | d, [], _, _, _ => d
  | d, _ :: _, [], _, _ => d
  | d, p :: vt, h :: ht, q, chunk =>
    update_sources_with_content o top_results
      { d with organic := setHtml d.organic p.1 (computedHtml o top_results h q chunk) }
      vt ht q chunk

/-- The non-pro Wikipedia filter: `[(i, source) for i, source in valid_sources
if 'wikipedia.org' in source['link']]`; a source without a `'link'` key raises
`KeyError`. -/
def wikiFilter : List (Nat × Src) → Except PyErr (List (Nat × Src))
  | [] => Except.ok []
  | p :: t =>
    match p.2.link with
    | none => Except.error PyErr.keyError
    | some l =>
      match wikiFilter t with
      | Except.error e => Except.error e
      | Except.ok rest =>
        Except.ok (if strContains "wikipedia.org" l then p :: rest else rest)

/-- The fetch-and-update tail of `process_sources`, once the candidate list to
fetch has been fixed. -/
def processFetchUpdate (o : Oracles) (top_results : Int) (d : SourcesData)
    (valid : List (Nat × Src)) (q : String) (chunk : Bool) : Except PyErr ProcResult :=
  match getLinks valid with
  | Except.error e => Except.error e
  | Except.ok ls =>
    match fetch_html_contents o ls with
    | Except.error e => Except.error e
    | Except.ok htmls =>
      Except.ok (ProcResult.innerD (update_sources_with_content o top_results d valid htmls q chunk))

/-- The body of `process_sources`'s `try` block: everything before the
top-level `except Exception` handler. -/
def processSourcesExc (o : Oracles) (top_results : Int) (sources : SourcesArg)
    (num_elements : Int) (q : String) (pro_mode chunk : Bool) : Except PyErr ProcResult :=
  match getData sources with
  | Except.error e => Except.error e
  | Except.ok d =>
    match get_valid_sources d num_elements with
    | [] => Except.ok (ProcResult.outer sources)
    | p :: vt =>
      if pro_mode then processFetchUpdate o top_results d (p :: vt) q chunk
      else
        match wikiFilter (p :: vt) with
        | Except.error e => Except.error e
        | Except.ok [] => Except.ok (ProcResult.innerD d)
        | Except.ok (w :: wt) => processFetchUpdate o top_results d (w :: wt) q chunk

/-- `SourceProcessor.process_sources`: the `try` body wrapped by the top-level
`except Exception` handler, which returns the `sources` argument. -/
def process_sources (o : Oracles) (top_results : Int) (sources : SourcesArg)
    (num_elements : Int) (q : String) (pro_mode chunk : Bool) : ProcResult :=
  match processSourcesExc o top_results sources num_elements q pro_mode chunk with
  | Except.ok r => r
  | Except.error _ => ProcResult.outer sources

/-- `SourceProcessor.__init__`'s `self.top_results = top_results or
config.get("top_results", 5)`: Python's `or` keeps the left operand only when
it is truthy (a nonzero int), otherwise evaluates to the configuration value
(defaulting to 5 when the `source_processor` section lacks the key). -/
def init_top_results (override : Option Int) (cfg_top_results : Option Int) : Int :=
  match override with
  | none => cfg_top_results.getD 5
  | some n => if n = 0 then cfg_top_results.getD 5 else n

/-- The organic sequence visible in a `process_sources` result ( `[]` for a
returned plain list, which has no organic sequence). -/
def organicOf : ProcResult → List (Option Src)
  | ProcResult.outer (SourcesArg.plain _) => []
  | ProcResult.outer (SourcesArg.wrapped d) => d.organic
  | ProcResult.innerD d => d.organic

/-- The `'html'` value of an organic entry (`none` for a falsy entry or an
unwritten key). -/
def htmlOfEntry : Option Src → Option HtmlVal
  | none => none
  | some s => s.html

/-- Every field of an organic entry except `'html'`. -/
def skel : Option Src → Option (Option String × List (String × String))
  | none => none
  | some s => some (s.link, s.extra)

/-- How many positions of `b` hold a different `'html'` value than the same
position of `a`. -/
def countModified (a b : List (Option Src)) : Nat :=
  ((a.zip b).filter (fun p => decide (htmlOfEntry p.1 ≠ htmlOfEntry p.2))).length

/-- Whether a source dict would pass the Wikipedia filter. -/
def isWikiSrc (s : Src) : Bool :=
  match s.link with
  | none => false
  | some l => strContains "wikipedia.org" l

/-- How many candidates carry a Wikipedia link. -/
def wikiCount (valid : List (Nat × Src)) : Nat :=
  (valid.filter (fun p => isWikiSrc p.2)).length

/-! ### Helper lemmas about `setHtml` -/

lemma setHtml_length (l : List (Option Src)) (i : Nat) (h : HtmlVal) :
    (setHtml l i h).length = l.length := by
  induction l generalizing i with
  | nil => rfl
  | cons e t ih =>
    cases i with
    | zero => simp [setHtml]
    | succ n => simp [setHtml, ih]

lemma setHtml_map_skel (l : List (Option Src)) (i : Nat) (h : HtmlVal) :
    (setHtml l i h).map skel = l.map skel := by
  induction l generalizing i with
  | nil => rfl
  | cons e t ih =>
    cases i with
    | zero =>
      cases e with
      | none => simp [setHtml, skel]
      | some s => simp [setHtml, skel]
    | succ n => simp [setHtml, ih]

lemma setHtml_get_ne (l : List (Option Src)) (i j : Nat) (h : HtmlVal) (hij : j ≠ i) :
    (setHtml l i h).get? j = l.get? j := by
  induction l generalizing i j with
  | nil => rfl
  | cons e t ih =>
    cases i with
    | zero =>
      cases j with
      | zero => exact absurd rfl hij
      | succ m => simp [setHtml]
    | succ n =>
      cases j with
      | zero => simp [setHtml]
      | succ m =>
        simp only [setHtml, List.get?]
        exact ih n m (fun hc => hij (by simp [hc]))

lemma setHtml_get_self (l : List (Option Src)) (i : Nat) (h : HtmlVal) :
    (setHtml l i h).get? i
      = (l.get? i).map (Option.map (fun s => { s with html := some h })) := by
  induction l generalizing i with
  | nil => rfl
  | cons e t ih =>
    cases i with
    | zero => simp [setHtml]
    | succ n =>
      simp only [setHtml, List.get?]
      exact ih n

/-! ### Helper lemmas about `update_sources_with_content` -/

lemma update_length (o : Oracles) (tr : Int) (valid : List (Nat × Src))
    (htmls : List String) (q : String) (ch : Bool) (d : SourcesData) :
    (update_sources_with_content o tr d valid htmls q ch).organic.length
      = d.organic.length := by
  induction valid generalizing d htmls with
  | nil => rfl
  | cons p vt ih =>
    cases htmls with
    | nil => rfl
    | cons h ht =>
      simp only [update_sources_with_content]
      rw [ih]
      exact setHtml_length _ _ _

lemma update_map_skel (o : Oracles) (tr : Int) (valid : List (Nat × Src))
    (htmls : List String) (q : String) (ch : Bool) (d : SourcesData) :
    (update_sources_with_content o tr d valid htmls q ch).organic.map skel
      = d.organic.map skel := by
  induction valid generalizing d htmls with
  | nil => rfl
  | cons p vt ih =>
    cases htmls with
    | nil => rfl
    | cons h ht =>
      simp only [update_sources_with_content]
      rw [ih]
      exact setHtml_map_skel _ _ _

lemma update_get_stable (o : Oracles) (tr : Int) (valid : List (Nat × Src))
    (htmls : List String) (q : String) (ch : Bool) (d : SourcesData) (j : Nat)
    (hj : ∀ p ∈ valid, p.1 ≠ j) :
    (update_sources_with_content o tr d valid htmls q ch).organic.get? j
      = d.organic.get? j := by
  induction valid generalizing d htmls with
  | nil => rfl
  | cons p vt ih =>
    cases htmls with
    | nil => rfl
    | cons h ht =>
      simp only [update_sources_with_content]
      rw [ih _ _ (fun p' hp' => hj p' (List.mem_cons_of_mem _ hp'))]
      exact setHtml_get_ne _ _ _ _ (fun hc => hj p (List.mem_cons_self _ _) hc.symm)

lemma update_get_pair (o : Oracles) (tr : Int) (valid : List (Nat × Src))
    (htmls : List String) (q : String) (ch : Bool) (d : SourcesData)
    (hdist : valid.Pairwise (fun a b => a.1 ≠ b.1))
    (k : Nat) (hk1 : k < valid.length) (hk2 : k < htmls.length) :
    (update_sources_with_content o tr d valid htmls q ch).organic.get?
        (valid.get ⟨k, hk1⟩).1
      = (d.organic.get? (valid.get ⟨k, hk1⟩).1).map
          (Option.map (fun s =>
            { s with html := some (computedHtml o tr (htmls.get ⟨k, hk2⟩) q ch) })) := by
  induction valid generalizing d htmls k with
  | nil => exact absurd hk1 (Nat.not_lt_zero k)
  | cons p vt ih =>
    cases htmls with
    | nil => exact absurd hk2 (Nat.not_lt_zero k)
    | cons h ht =>
      have hdist' : vt.Pairwise (fun a b => a.1 ≠ b.1) := (List.pairwise_cons.mp hdist).2
      have hhead : ∀ b ∈ vt, p.1 ≠ b.1 := (List.pairwise_cons.mp hdist).1
      cases k with
      | zero =>
        simp only [update_sources_with_content, List.get]
        rw [update_get_stable o tr vt ht q ch _ p.1
          (fun p' hp' => fun hc => hhead p' hp' hc.symm)]
        exact setHtml_get_self _ _ _
      | succ m =>
        simp only [update_sources_with_content, List.get]
        have hm1 : m < vt.length := Nat.lt_of_succ_lt_succ hk1
        have hm2 : m < ht.length := Nat.lt_of_succ_lt_succ hk2
        rw [ih ht _ hdist' m hm1 hm2]
        congr 1
        exact setHtml_get_ne _ _ _ _
          (fun hc => hhead _ (List.get_mem vt m hm1) hc.symm)

/-! ### Helper lemmas about `countModified` -/

lemma countModified_nil (b : List (Option Src)) : countModified [] b = 0 := by
  simp [countModified]

lemma countModified_cons (x y : Option Src) (xs ys : List (Option Src)) :
    countModified (x :: xs) (y :: ys)
      = (if htmlOfEntry x = htmlOfEntry y then 0 else 1) + countModified xs ys := by
  by_cases h : htmlOfEntry x = htmlOfEntry y
  · simp [countModified, h]
  · simp [countModified, h, Nat.add_comm]

lemma countModified_self (a : List (Option Src)) : countModified a a = 0 := by
  induction a with
  | nil => exact countModified_nil []
  | cons x xs ih => rw [countModified_cons, ih, if_pos rfl]

lemma countModified_setHtml_le (a : List (Option Src)) (l : List (Option Src))
    (i : Nat) (h : HtmlVal) :
    countModified a (setHtml l i h) ≤ countModified a l + 1 := by
  induction a generalizing l i with
  | nil => rw [countModified_nil]; exact Nat.zero_le _
  | cons x xs ih =>
    cases l with
    | nil => simp [setHtml, countModified]
    | cons y ys =>
      cases i with
      | zero =>
        simp only [setHtml]
        rw [countModified_cons, countModified_cons]
        have h1 : (if htmlOfEntry x
            = htmlOfEntry (Option.map (fun s => { s with html := some h }) y)
            then 0 else 1) ≤ 1 := by split <;> omega
        have h2 : (0 : Nat) ≤ (if htmlOfEntry x = htmlOfEntry y then 0 else 1) :=
          Nat.zero_le _
        omega
      | succ n =>
        simp only [setHtml]
        rw [countModified_cons, countModified_cons]
        have := ih ys n
        omega

lemma countModified_update_le (o : Oracles) (tr : Int) (valid : List (Nat × Src))
    (htmls : List String) (q : String) (ch : Bool) (a : List (Option Src))
    (d : SourcesData) :
    countModified a (update_sources_with_content o tr d valid htmls q ch).organic
      ≤ countModified a d.organic + valid.length := by
  induction valid generalizing d htmls with
  | nil => simp [update_sources_with_content]
  | cons p vt ih =>
    cases htmls with
    | nil => simp [update_sources_with_content]
    | cons h ht =>
      simp only [update_sources_with_content]
      have h1 : countModified a
          (update_sources_with_content o tr
            { d with organic := setHtml d.organic p.1 (computedHtml o tr h q ch) }
            vt ht q ch).organic
          ≤ countModified a (setHtml d.organic p.1 (computedHtml o tr h q ch)) + vt.length :=
        ih ht { d with organic := setHtml d.organic p.1 (computedHtml o tr h q ch) }
      have h2 := countModified_setHtml_le a d.organic p.1 (computedHtml o tr h q ch)
      simp only [List.length_cons]
      omega

/-! ### Helper lemmas about selection and the Wikipedia filter -/

lemma get_valid_sources_length_le (d : SourcesData) (ne : Int) (hne : 0 ≤ ne) :
    (get_valid_sources d ne).length ≤ ne.toNat := by
  unfold get_valid_sources
  calc ((List.enum (pySliceTo d.organic ne)).filterMap
          (fun p => Option.map (fun s => (p.1, s)) p.2)).length
      ≤ (List.enum (pySliceTo d.organic ne)).length :=
        List.length_filterMap_le _ _
    _ = (pySliceTo d.organic ne).length := List.enum_length
    _ ≤ ne.toNat := by
        unfold pySliceTo
        rw [if_pos hne]
        exact le_trans (List.length_take_le _ _) (le_refl _)

lemma wikiFilter_ok_length (v : List (Nat × Src)) (w : List (Nat × Src))
    (h : wikiFilter v = Except.ok w) : w.length = wikiCount v := by
  induction v generalizing w with
  | nil =>
    simp only [wikiFilter] at h
    cases h
    rfl
  | cons p t ih =>
    simp only [wikiFilter] at h
    cases hl : p.2.link with
    | none => rw [hl] at h; cases h
    | some l =>
      rw [hl] at h
      cases hr : wikiFilter t with
      | error e => rw [hr] at h; cases h
      | ok rest =>
        rw [hr] at h
        simp only [Except.ok.injEq] at h
        subst h
        unfold wikiCount
        by_cases hw : strContains "wikipedia.org" l
        · simp only [if_pos hw, List.filter_cons,
            show isWikiSrc p.2 = true by unfold isWikiSrc; rw [hl]; exact hw]
          simp [ih rest hr, wikiCount]
        · simp only [if_neg hw, List.filter_cons,
            show isWikiSrc p.2 = false by unfold isWikiSrc; rw [hl]; simpa using hw]
          simp [ih rest hr, wikiCount]

lemma wikiCount_le_length (v : List (Nat × Src)) : wikiCount v ≤ v.length :=
  List.length_filter_le _ _

/-- All candidates have a link and none is a Wikipedia link: the filter
returns the empty list. -/
lemma wikiFilter_none (v : List (Nat × Src))
    (h : ∀ p ∈ v, ∃ l, p.2.link = some l ∧ strContains "wikipedia.org" l = false) :
    wikiFilter v = Except.ok [] := by
  induction v with
  | nil => rfl
  | cons p t ih =>
    obtain ⟨l, hl, hw⟩ := h p (List.mem_cons_self _ _)
    simp only [wikiFilter, hl, ih (fun p' hp' => h p' (List.mem_cons_of_mem _ hp')), hw]
    simp

/-- Failing per-source processing yields the empty string result. -/
lemma process_html_content_fail (o : Oracles) (tr : Int) (h q : String)
    (hfail : h = "" ∨ (∃ e, o.split_text h = Except.error e)
      ∨ (∃ documents e, o.split_text h = Except.ok documents
          ∧ o.get_reranked_documents q documents tr = Except.error e)) :
    process_html_content o tr h q = HtmlVal.str "" := by
  rcases hfail with hh | ⟨e, he⟩ | ⟨documents, e, hd, he⟩
  · simp [process_html_content, hh]
  · by_cases hh : h = ""
    · simp [process_html_content, hh]
    · simp [process_html_content, hh, he]
  · by_cases hh : h = ""
    · simp [process_html_content, hh]
    · simp [process_html_content, hh, hd, he]

/-! ### Shape of a `process_sources` run on a wrapped argument -/

lemma processFetchUpdate_shape (o : Oracles) (tr : Int) (d : SourcesData)
    (valid : List (Nat × Src)) (q : String) (ch : Bool) :
    (∃ e, processFetchUpdate o tr d valid q ch = Except.error e)
    ∨ (∃ ls htmls, getLinks valid = Except.ok ls
        ∧ fetch_html_contents o ls = Except.ok htmls
        ∧ processFetchUpdate o tr d valid q ch
            = Except.ok (ProcResult.innerD
                (update_sources_with_content o tr d valid htmls q ch))) := by
  unfold processFetchUpdate
  split
  · rename_i e he
    exact Or.inl ⟨e, rfl⟩
  · rename_i ls hls
    split
    · rename_i e he
      exact Or.inl ⟨e, rfl⟩
    · rename_i htmls hf
      exact Or.inr ⟨ls, htmls, hls, hf, rfl⟩

/-- Every run of `process_sources` on a wrapped argument either hands back the
argument itself, hands back the untouched inner data, or hands back the inner
data updated along the candidate list selected by the mode. -/
lemma process_sources_wrapped_shape (o : Oracles) (tr : Int) (d : SourcesData)
    (ne : Int) (q : String) (pm ch : Bool) :
    process_sources o tr (SourcesArg.wrapped d) ne q pm ch
        = ProcResult.outer (SourcesArg.wrapped d)
    ∨ process_sources o tr (SourcesArg.wrapped d) ne q pm ch = ProcResult.innerD d
    ∨ (∃ v2 htmls,
        process_sources o tr (SourcesArg.wrapped d) ne q pm ch
          = ProcResult.innerD (update_sources_with_content o tr d v2 htmls q ch)
        ∧ ((pm = true ∧ v2 = get_valid_sources d ne)
            ∨ (pm = false ∧ wikiFilter (get_valid_sources d ne) = Except.ok v2))) := by
  unfold process_sources processSourcesExc
  simp only [getData]
  cases hv : get_valid_sources d ne with
  | nil => exact Or.inl rfl
  | cons p vt =>
    cases pm with
    | true =>
      simp only [if_pos]
      rcases processFetchUpdate_shape o tr d (p :: vt) q ch with ⟨e, he⟩ | ⟨ls, htmls, _, _, he⟩
      · rw [he]
        exact Or.inl rfl
      · rw [he]
        exact Or.inr (Or.inr ⟨p :: vt, htmls, rfl, Or.inl ⟨trivial, rfl⟩⟩)
    | false =>
      simp only [Bool.false_eq_true, if_false]
      cases hw : wikiFilter (p :: vt) with
      | error e => exact Or.inl rfl
      | ok w =>
        cases w with
        | nil => exact Or.inr (Or.inl rfl)
        | cons w0 wt =>
          rcases processFetchUpdate_shape o tr d (w0 :: wt) q ch with ⟨e, he⟩ | ⟨ls, htmls, _, _, he⟩
          · simp only [he]
            exact Or.inl trivial
          · simp only [he]
            exact Or.inr (Or.inr ⟨w0 :: wt, htmls, rfl, Or.inr ⟨trivial, rfl⟩⟩)

/-! ### `chunk = false` ignores the chunker and the reranker -/

lemma update_false_oracle_free (o o' : Oracles) (tr tr' : Int)
    (valid : List (Nat × Src)) (htmls : List String) (q : String) (d : SourcesData) :
    update_sources_with_content o tr d valid htmls q false
      = update_sources_with_content o' tr' d valid htmls q false := by
  induction valid generalizing d htmls with
  | nil => rfl
  | cons p vt ih =>
    cases htmls with
    | nil => rfl
    | cons h ht =>
      simp only [update_sources_with_content, computedHtml, Bool.false_eq_true, if_false]
      exact ih ht _

lemma processFetchUpdate_false_oracle_free (o o' : Oracles) (tr tr' : Int)
    (d : SourcesData) (v : List (Nat × Src)) (q : String)
    (hscrape : o.scrape_many = o'.scrape_many) :
    processFetchUpdate o tr d v q false = processFetchUpdate o' tr' d v q false := by
  have h1 : ∀ ls, fetch_html_contents o ls = fetch_html_contents o' ls := by
    intro ls
    unfold fetch_html_contents
    rw [hscrape]
  have h2 : ∀ htmls, update_sources_with_content o tr d v htmls q false
      = update_sources_with_content o' tr' d v htmls q false :=
    fun htmls => update_false_oracle_free o o' tr tr' v htmls q d
  unfold processFetchUpdate
  simp only [h1, h2]

lemma processSourcesExc_false_oracle_free (o o' : Oracles) (tr tr' : Int)
    (s : SourcesArg) (ne : Int) (q : String) (pm : Bool)
    (hscrape : o.scrape_many = o'.scrape_many) :
    processSourcesExc o tr s ne q pm false = processSourcesExc o' tr' s ne q pm false := by
  cases s with
  | plain l => rfl
  | wrapped d =>
    have h3 : ∀ v : List (Nat × Src),
        processFetchUpdate o tr d v q false = processFetchUpdate o' tr' d v q false :=
      fun v => processFetchUpdate_false_oracle_free o o' tr tr' d v q hscrape
    unfold processSourcesExc
    simp only [getData, h3]

/-! ### Claim theorems -/

/-- C1: `process_sources` never propagates a raised exception: whenever the
`try` body raises (any exception, anywhere in candidate selection, mode
filtering, fetching or per-source updating), the top-level handler returns the
original `sources` argument itself, unmutated (the embedding threads all
mutation through the returned value, and the only mutating stage,
`_update_sources_with_content`, cannot raise); in particular a scrape failure
for the batch yields the original wrapped `sources` object. -/
theorem c1_exception_containment :
    (∀ (o : Oracles) (tr : Int) (s : SourcesArg) (ne : Int) (q : String)
        (pm ch : Bool) (e : PyErr),
      processSourcesExc o tr s ne q pm ch = Except.error e →
      process_sources o tr s ne q pm ch = ProcResult.outer s)
    ∧ (∀ (o : Oracles) (tr : Int) (d : SourcesData) (ne : Int) (q : String)
        (ch : Bool) (ls : List String) (e : PyErr),
      get_valid_sources d ne ≠ [] →
      getLinks (get_valid_sources d ne) = Except.ok ls →
      o.scrape_many ls = Except.error e →
      process_sources o tr (SourcesArg.wrapped d) ne q true ch
        = ProcResult.outer (SourcesArg.wrapped d)) := by
  constructor
  · intro o tr s ne q pm ch e h
    unfold process_sources
    rw [h]
  · intro o tr d ne q ch ls e hval hlinks hscrape
    unfold process_sources processSourcesExc
    simp only [getData]
    cases hvv : get_valid_sources d ne with
    | nil => exact absurd hvv hval
    | cons p vt =>
      rw [hvv] at hlinks
      simp only [if_pos]
      unfold processFetchUpdate fetch_html_contents
      simp only [hlinks, hscrape]

/-- C4: processing never reorders or removes organic entries and changes no
field other than `'html'`: the result's organic sequence (whichever of the two
return paths produced it) has the same length and, position by position, the
same `'link'` and pass-through fields as the input. -/
theorem c4_frame_only_html (o : Oracles) (tr : Int) (d : SourcesData) (ne : Int)
    (q : String) (pm ch : Bool) :
    (organicOf (process_sources o tr (SourcesArg.wrapped d) ne q pm ch)).map skel
        = d.organic.map skel
    ∧ (organicOf (process_sources o tr (SourcesArg.wrapped d) ne q pm ch)).length
        = d.organic.length := by
  have key : (organicOf (process_sources o tr (SourcesArg.wrapped d) ne q pm ch)).map skel
      = d.organic.map skel := by
    rcases process_sources_wrapped_shape o tr d ne q pm ch with h | h | ⟨v2, htmls, h, _⟩
    · rw [h]
      rfl
    · rw [h]
      rfl
    · rw [h]
      exact update_map_skel o tr v2 htmls q ch d
  refine ⟨key, ?_⟩
  have := congrArg List.length key
  simpa using this

/-- C8 (amended): `num_elements = 0` selects no candidates, and the call
returns the `sources` argument itself with nothing touched and without
consulting any collaborator (the result does not depend on the oracles).
The original claim extended this to every `num_elements ≤ 0`, which the
Python slice semantics refutes (see the counterexample). -/
theorem c8_zero_num_elements :
    (∀ d : SourcesData, get_valid_sources d 0 = [])
    ∧ (∀ (o : Oracles) (tr : Int) (s : SourcesArg) (q : String) (pm ch : Bool),
        process_sources o tr s 0 q pm ch = ProcResult.outer s)
    ∧ (∀ (o o' : Oracles) (tr tr' : Int) (s : SourcesArg) (q : String) (pm ch : Bool),
        process_sources o tr s 0 q pm ch = process_sources o' tr' s 0 q pm ch) := by
  have h1 : ∀ d : SourcesData, get_valid_sources d 0 = [] := by
    intro d
    simp [get_valid_sources, pySliceTo]
  have h2 : ∀ (o : Oracles) (tr : Int) (s : SourcesArg) (q : String) (pm ch : Bool),
      process_sources o tr s 0 q pm ch = ProcResult.outer s := by
    intro o tr s q pm ch
    cases s with
    | plain l => rfl
    | wrapped d =>
      unfold process_sources processSourcesExc
      simp only [getData, h1]
  exact ⟨h1, h2, fun o o' tr tr' s q pm ch => (h2 o tr s q pm ch).trans (h2 o' tr' s q pm ch).symm⟩

/-- C9: in `__init__`, `top_results or config.get("top_results", 5)` ignores
any falsy override (`0` or `None`): the stored value falls back to the
configuration value, which defaults to 5 when absent — so an explicit
`top_results = 0` never installs 0 unless the configuration itself says 0. -/
theorem c9_falsy_override_ignored :
    (∀ cfg : Option Int, init_top_results (some 0) cfg = cfg.getD 5)
    ∧ (∀ cfg : Option Int, init_top_results none cfg = cfg.getD 5)
    ∧ init_top_results (some 0) none = 5
    ∧ init_top_results none none = 5 := by
  refine ⟨fun cfg => ?_, fun cfg => ?_, rfl, rfl⟩ <;> simp [init_top_results]

/-- C10: calling `process_sources` with a plain list (the declared parameter
type `List[dict]`) always raises `AttributeError` at `sources.data` inside the
`try` body, on every path; the top-level handler swallows it, so the call
returns the plain list unchanged and never enriches anything. -/
theorem c10_plain_list_degenerate (o : Oracles) (tr : Int) (l : List (Option Src))
    (ne : Int) (q : String) (pm ch : Bool) :
    processSourcesExc o tr (SourcesArg.plain l) ne q pm ch
        = Except.error PyErr.attributeError
    ∧ process_sources o tr (SourcesArg.plain l) ne q pm ch
        = ProcResult.outer (SourcesArg.plain l) :=
  ⟨rfl, rfl⟩

/-- C2 (amended): counting the organic entries whose `'html'` value differs
from the input, a `process_sources` call with `num_elements ≥ 0` populates at
most `num_elements` of them, and in non-pro mode at most the number of valid
candidates whose link contains `'wikipedia.org'`.  The original claim's
non-pro bound of 1 fails because the code processes every Wikipedia match,
not only the first (see the counterexample); the original bound also fails
for negative `num_elements`, where the Python slice still yields candidates. -/
theorem c2_population_bound (o : Oracles) (tr : Int) (d : SourcesData) (ne : Int)
    (q : String) (pm ch : Bool) (hne : 0 ≤ ne) :
    countModified d.organic
        (organicOf (process_sources o tr (SourcesArg.wrapped d) ne q pm ch)) ≤ ne.toNat
    ∧ (pm = false →
        countModified d.organic
            (organicOf (process_sources o tr (SourcesArg.wrapped d) ne q pm ch))
          ≤ wikiCount (get_valid_sources d ne)) := by
  rcases process_sources_wrapped_shape o tr d ne q pm ch with h | h | ⟨v2, htmls, h, hside⟩
  · rw [h]
    have h0 : countModified d.organic (organicOf (ProcResult.outer (SourcesArg.wrapped d))) = 0 :=
      countModified_self d.organic
    rw [h0]
    exact ⟨Nat.zero_le _, fun _ => Nat.zero_le _⟩
  · rw [h]
    have h0 : countModified d.organic (organicOf (ProcResult.innerD d)) = 0 :=
      countModified_self d.organic
    rw [h0]
    exact ⟨Nat.zero_le _, fun _ => Nat.zero_le _⟩
  · rw [h]
    have hcount : countModified d.organic
        (organicOf (ProcResult.innerD (update_sources_with_content o tr d v2 htmls q ch)))
        ≤ v2.length := by
      have := countModified_update_le o tr v2 htmls q ch d.organic d
      rw [countModified_self] at this
      simpa using this
    rcases hside with ⟨hpm, hv2⟩ | ⟨hpm, hv2⟩
    · subst hv2
      refine ⟨le_trans hcount (get_valid_sources_length_le d ne hne), fun hc => ?_⟩
      rw [hpm] at hc
      cases hc
    · have hlen : v2.length = wikiCount (get_valid_sources d ne) :=
        wikiFilter_ok_length _ _ hv2
      refine ⟨?_, fun _ => le_trans hcount (le_of_eq hlen)⟩
      calc countModified d.organic
            (organicOf (ProcResult.innerD (update_sources_with_content o tr d v2 htmls q ch)))
          ≤ v2.length := hcount
        _ = wikiCount (get_valid_sources d ne) := hlen
        _ ≤ (get_valid_sources d ne).length := wikiCount_le_length _
        _ ≤ ne.toNat := get_valid_sources_length_le d ne hne

/-- C3: in non-pro mode, when the valid candidate list is nonempty, every
candidate has a `'link'` key, and no candidate's link contains
`'wikipedia.org'`, the call short-circuits and returns the raw inner
`sources.data` (not the outer container), unchanged. -/
theorem c3_wiki_miss_returns_raw_data (o : Oracles) (tr : Int) (d : SourcesData)
    (ne : Int) (q : String) (ch : Bool)
    (hnonempty : get_valid_sources d ne ≠ [])
    (hnowiki : ∀ p ∈ get_valid_sources d ne,
        p.2.link.isSome = true ∧ isWikiSrc p.2 = false) :
    process_sources o tr (SourcesArg.wrapped d) ne q false ch = ProcResult.innerD d := by
  have hw : wikiFilter (get_valid_sources d ne) = Except.ok [] := by
    apply wikiFilter_none
    intro p hp
    obtain ⟨hsome, hwiki⟩ := hnowiki p hp
    cases hl : p.2.link with
    | none => rw [hl] at hsome; cases hsome
    | some l =>
      refine ⟨l, rfl, ?_⟩
      unfold isWikiSrc at hwiki
      rw [hl] at hwiki
      exact hwiki
  unfold process_sources processSourcesExc
  simp only [getData]
  cases hvv : get_valid_sources d ne with
  | nil => exact absurd hvv hnonempty
  | cons p vt =>
    rw [hvv] at hw
    simp only [Bool.false_eq_true, if_false, hw]

/-- C5: per-source failure isolation in the chunking path: with distinct
candidate indices, every zipped (source, content) pair is transformed
independently — pair `j` receives exactly
`process_html_content` of its own content — and a pair whose content is empty,
whose chunking raises, or whose reranking raises receives the empty result
`""` (the empty string the code stores), while all other pairs of the batch
are still processed normally. -/
theorem c5_per_source_isolation (o : Oracles) (tr : Int) (q : String)
    (d : SourcesData) (valid : List (Nat × Src)) (htmls : List String)
    (hdist : valid.Pairwise (fun a b => a.1 ≠ b.1))
    (k : Nat) (hk1 : k < valid.length) (hk2 : k < htmls.length)
    (hfail : htmls.get ⟨k, hk2⟩ = ""
      ∨ (∃ e, o.split_text (htmls.get ⟨k, hk2⟩) = Except.error e)
      ∨ (∃ documents e, o.split_text (htmls.get ⟨k, hk2⟩) = Except.ok documents
          ∧ o.get_reranked_documents q documents tr = Except.error e)) :
    (update_sources_with_content o tr d valid htmls q true).organic.get?
        (valid.get ⟨k, hk1⟩).1
      = (d.organic.get? (valid.get ⟨k, hk1⟩).1).map
          (Option.map (fun s => { s with html := some (HtmlVal.str "") }))
    ∧ ∀ (j : Nat) (hj1 : j < valid.length) (hj2 : j < htmls.length),
        (update_sources_with_content o tr d valid htmls q true).organic.get?
            (valid.get ⟨j, hj1⟩).1
          = (d.organic.get? (valid.get ⟨j, hj1⟩).1).map
              (Option.map (fun s =>
                { s with html := some (process_html_content o tr (htmls.get ⟨j, hj2⟩) q) })) := by
  have hpair : ∀ (j : Nat) (hj1 : j < valid.length) (hj2 : j < htmls.length),
      (update_sources_with_content o tr d valid htmls q true).organic.get?
          (valid.get ⟨j, hj1⟩).1
        = (d.organic.get? (valid.get ⟨j, hj1⟩).1).map
            (Option.map (fun s =>
              { s with html := some (process_html_content o tr (htmls.get ⟨j, hj2⟩) q) })) := by
    intro j hj1 hj2
    have := update_get_pair o tr valid htmls q true d hdist j hj1 hj2
    simpa [computedHtml] using this
  refine ⟨?_, hpair⟩
  have := hpair k hk1 hk2
  rw [this, process_html_content_fail o tr (htmls.get ⟨k, hk2⟩) q hfail]

/-- C6 (amended): the pairing of sources with fetched contents is positional,
not keyed by link: with distinct candidate indices, when the links of the
candidates extract to `ls` and the fetch step succeeds with contents `htmls`
(the `'no_extraction'` contents of the scraper's result mapping in the
mapping's own enumeration order), the `k`-th candidate receives the `k`-th
element of `htmls` — which equals `result[link]['no_extraction'].content` for
its own link only when the mapping enumerates the requested links in request
order.  The original claim's order-independence fails (see the
counterexample). -/
theorem c6_positional_pairing (o : Oracles) (tr : Int) (q : String) (ch : Bool)
    (d : SourcesData) (valid : List (Nat × Src)) (ls htmls : List String)
    (hdist : valid.Pairwise (fun a b => a.1 ≠ b.1))
    (_hlinks : getLinks valid = Except.ok ls)
    (_hfetch : fetch_html_contents o ls = Except.ok htmls)
    (k : Nat) (hk1 : k < valid.length) (hk2 : k < htmls.length) :
    (update_sources_with_content o tr d valid htmls q ch).organic.get?
        (valid.get ⟨k, hk1⟩).1
      = (d.organic.get? (valid.get ⟨k, hk1⟩).1).map
          (Option.map (fun s =>
            { s with html := some (computedHtml o tr (htmls.get ⟨k, hk2⟩) q ch) })) :=
  update_get_pair o tr valid htmls q ch d hdist k hk1 hk2

/-- C7: when `chunk` is false, every processed pair's `'html'` becomes the
one-element list holding its verbatim fetched content, and neither the
chunker nor the reranker is consulted: the whole `process_sources` result is
unchanged under arbitrary replacement of `split_text`,
`get_reranked_documents` and `top_results` as long as the scraper is the
same. -/
theorem c7_chunk_false_verbatim :
    (∀ (o o' : Oracles) (tr tr' : Int) (s : SourcesArg) (ne : Int) (q : String)
        (pm : Bool),
      o.scrape_many = o'.scrape_many →
      process_sources o tr s ne q pm false = process_sources o' tr' s ne q pm false)
    ∧ (∀ (o : Oracles) (tr : Int) (q : String) (d : SourcesData)
        (valid : List (Nat × Src)) (htmls : List String),
      valid.Pairwise (fun a b => a.1 ≠ b.1) →
      ∀ (j : Nat) (hj1 : j < valid.length) (hj2 : j < htmls.length),
        (update_sources_with_content o tr d valid htmls q false).organic.get?
            (valid.get ⟨j, hj1⟩).1
          = (d.organic.get? (valid.get ⟨j, hj1⟩).1).map
              (Option.map (fun s =>
                { s with html := some (HtmlVal.list [htmls.get ⟨j, hj2⟩]) }))) := by
  constructor
  · intro o o' tr tr' s ne q pm hscrape
    unfold process_sources
    rw [processSourcesExc_false_oracle_free o o' tr tr' s ne q pm hscrape]
  · intro o tr q d valid htmls hdist j hj1 hj2
    have := update_get_pair o tr valid htmls q false d hdist j hj1 hj2
    simpa [computedHtml] using this

/-! ### Concrete fixtures for witnesses and counterexamples -/

/-- A scraper whose batch call always raises. -/
def oFail : Oracles :=
  { scrape_many := fun _ => Except.error (PyErr.other "net down"),
    split_text := fun h => Except.ok [h],
    get_reranked_documents := fun _ documents _ => Except.ok documents }

/-- Two truthy sources with plain links. -/
def srcA : Src := { link := some "a" }

def srcB : Src := { link := some "b" }

def dAB : SourcesData := { organic := [some srcA, some srcB] }

/-- The candidate list `_get_valid_sources` produces for `dAB` with window 2. -/
def validAB : List (Nat × Src) := [(0, srcA), (1, srcB)]

/-- A result set holding two Wikipedia links. -/
def dWiki2 : SourcesData :=
  { organic := [some { link := some "https://en.wikipedia.org/a" },
                some { link := some "https://de.wikipedia.org/b" }] }

/-- A well-behaved scraper for `dWiki2`'s links, echoing rerankers. -/
def oWiki2 : Oracles :=
  { scrape_many := fun _ => Except.ok
      [("https://en.wikipedia.org/a", [("no_extraction", "A")]),
       ("https://de.wikipedia.org/b", [("no_extraction", "B")])],
    split_text := fun h => Except.ok [h],
    get_reranked_documents := fun _ documents _ => Except.ok documents }

/-- One valid source with a non-Wikipedia link. -/
def dPlainLink : SourcesData := { organic := [some { link := some "https://example.com/x" }] }

/-- A chunker that raises on the content `"BAD"` only. -/
def oC5 : Oracles :=
  { scrape_many := fun _ => Except.ok [],
    split_text := fun h =>
      if h = "BAD" then Except.error (PyErr.other "chunker boom") else Except.ok [h],
    get_reranked_documents := fun _ documents _ => Except.ok documents }

/-- A scraper whose result mapping enumerates the two requested links in the
opposite order (a legal dict over the same keys). -/
def oSwap : Oracles :=
  { scrape_many := fun _ => Except.ok
      [("b", [("no_extraction", "CB")]), ("a", [("no_extraction", "CA")])],
    split_text := fun h => Except.ok [h],
    get_reranked_documents := fun _ documents _ => Except.ok documents }

/-- Same scraper as `oSwap` but with a chunker and reranker that always
raise. -/
def oAlt : Oracles :=
  { scrape_many := oSwap.scrape_many,
    split_text := fun _ => Except.error (PyErr.other "down"),
    get_reranked_documents := fun _ _ _ => Except.error (PyErr.other "down") }

/-- A scraper returning one entry for the sliced candidate. -/
def oC8 : Oracles :=
  { scrape_many := fun _ => Except.ok [("a", [("no_extraction", "X")])],
    split_text := fun h => Except.ok [h],
    get_reranked_documents := fun _ documents _ => Except.ok documents }

/-! ### Witnesses and counterexamples -/

/-- C1 witness: the containment theorem applied to a plain-list call (which
raises `AttributeError`) and to a wrapped call whose batch scrape raises. -/
theorem c1_witness :
    process_sources oFail 5 (SourcesArg.plain []) 1 "q" true true
        = ProcResult.outer (SourcesArg.plain [])
    ∧ process_sources oFail 5 (SourcesArg.wrapped dAB) 2 "q" true true
        = ProcResult.outer (SourcesArg.wrapped dAB) :=
  ⟨c1_exception_containment.1 oFail 5 (SourcesArg.plain []) 1 "q" true true
      PyErr.attributeError rfl,
   c1_exception_containment.2 oFail 5 dAB 2 "q" true ["a", "b"]
      (PyErr.other "net down") (by decide) rfl rfl⟩

/-- C2 counterexample: with `pro_mode = false` and two Wikipedia links among
the first two candidates, a successful run populates the `'html'` of BOTH, so
the claimed non-pro bound of 1 is false. -/
theorem c2_counterexample :
    countModified dWiki2.organic
        (organicOf (process_sources oWiki2 5 (SourcesArg.wrapped dWiki2) 2 "q" false false))
      = 2 := by
  rfl

/-- C2 witness for the amended bound, at the same concrete run. -/
theorem c2_witness :
    countModified dWiki2.organic
        (organicOf (process_sources oWiki2 5 (SourcesArg.wrapped dWiki2) 2 "q" false false))
      ≤ Int.toNat 2
    ∧ (false = false →
        countModified dWiki2.organic
            (organicOf (process_sources oWiki2 5 (SourcesArg.wrapped dWiki2) 2 "q" false false))
          ≤ wikiCount (get_valid_sources dWiki2 2)) :=
  c2_population_bound oWiki2 5 dWiki2 2 "q" false false (by decide)

/-- C3 witness: one valid non-Wikipedia source in non-pro mode returns the
raw inner data. -/
theorem c3_witness :
    process_sources oWiki2 5 (SourcesArg.wrapped dPlainLink) 1 "q" false true
        = ProcResult.innerD dPlainLink :=
  c3_wiki_miss_returns_raw_data oWiki2 5 dPlainLink 1 "q" true (by decide) (by decide)

/-- C5 witness: content `"BAD"` makes the chunker raise, that source alone
gets the empty result, and the `"GOOD"` source is still processed. -/
theorem c5_witness :
    (update_sources_with_content oC5 5 dAB validAB ["BAD", "GOOD"] "q" true).organic.get? 0
        = (dAB.organic.get? 0).map
            (Option.map (fun s => { s with html := some (HtmlVal.str "") }))
    ∧ (update_sources_with_content oC5 5 dAB validAB ["BAD", "GOOD"] "q" true).organic.get? 1
        = (dAB.organic.get? 1).map
            (Option.map (fun s =>
              { s with html := some (process_html_content oC5 5 "GOOD" "q") })) := by
  have h := c5_per_source_isolation oC5 5 "q" dAB validAB ["BAD", "GOOD"]
    (by decide) 0 (by decide) (by decide)
    (Or.inr (Or.inl ⟨PyErr.other "chunker boom", rfl⟩))
  exact ⟨h.1, h.2 1 (by decide) (by decide)⟩

/-- C6 counterexample: the scraper's mapping enumerates `"b"` before `"a"`;
the source whose link is `"a"` ends up holding `"CB"`, the content fetched for
`"b"`, even though the mapping maps `"a"` to `"CA"` — the claimed
order-independent per-link pairing is false. -/
theorem c6_counterexample :
    organicOf (process_sources oSwap 5 (SourcesArg.wrapped dAB) 2 "q" true false)
        = [some { link := some "a", html := some (HtmlVal.list ["CB"]), extra := [] },
           some { link := some "b", html := some (HtmlVal.list ["CA"]), extra := [] }]
    ∧ List.lookup "a" [("b", [("no_extraction", "CB")]), ("a", [("no_extraction", "CA")])]
        = some [("no_extraction", "CA")]
    ∧ HtmlVal.list ["CB"] ≠ HtmlVal.list ["CA"] :=
  ⟨rfl, rfl, by decide⟩

/-- C6 witness for the amended positional pairing, at the swapped-order
scrape. -/
theorem c6_witness :
    (update_sources_with_content oSwap 5 dAB validAB ["CB", "CA"] "q" false).organic.get? 0
        = (dAB.organic.get? 0).map
            (Option.map (fun s => { s with html := some (HtmlVal.list ["CB"]) })) := by
  have h := c6_positional_pairing oSwap 5 "q" false dAB validAB ["a", "b"] ["CB", "CA"]
    (by decide) rfl rfl 0 (by decide) (by decide)
  exact h

/-- C7 witness: replacing the chunker/reranker (and `top_results`) changes
nothing when `chunk = false`, and a processed pair receives the one-element
verbatim content. -/
theorem c7_witness :
    process_sources oSwap 5 (SourcesArg.wrapped dAB) 2 "q" true false
        = process_sources oAlt 7 (SourcesArg.wrapped dAB) 2 "q" true false
    ∧ (update_sources_with_content oSwap 5 dAB validAB ["CB", "CA"] "q" false).organic.get? 1
        = (dAB.organic.get? 1).map
            (Option.map (fun s => { s with html := some (HtmlVal.list ["CA"]) })) :=
  ⟨c7_chunk_false_verbatim.1 oSwap oAlt 5 7 (SourcesArg.wrapped dAB) 2 "q" true rfl,
   c7_chunk_false_verbatim.2 oSwap 5 "q" dAB validAB ["CB", "CA"] (by decide) 1
      (by decide) (by decide)⟩

/-- C8 counterexample: `num_elements = -1` is ≤ 0, yet the Python slice
`organic[:-1]` keeps the first of two sources, the scraper is consulted and
that source's `'html'` is populated — the claim's "no candidates, nothing
touched" is false for negative `num_elements`. -/
theorem c8_counterexample :
    (-1 : Int) ≤ 0
    ∧ get_valid_sources dAB (-1) = [(0, srcA)]
    ∧ process_sources oC8 5 (SourcesArg.wrapped dAB) (-1) "q" true false
        = ProcResult.innerD
            { organic := [some { link := some "a", html := some (HtmlVal.list ["X"]),
                                 extra := [] },
                          some srcB],
              rest := [] } :=
  ⟨by decide, rfl, rfl⟩
